import Mathlib

/-!
Verification development for the gstage4 staged-build pipeline.

The definitions below are a shallow embedding of the Python source:
  * `_workdir.py` : `WorkDir` (the directory version store) and
    `WorkDirChrooter` (the base chroot binder);
  * `_builder.py` : the `Action` decorator / `BuildProgress` state machine,
    `_Chrooter` (the extended chroot binder), `_TargetSettings` validation,
    the parallelism derivations and the install-list ordering.

Filesystem trees are abstracted to an opaque content identifier (`Nat`):
the store operations only ever move, copy or delete whole trees, so the
identifier is enough to track where each tree goes.  A store is the list
of top-level entries of the working directory, each entry being either a
directory (with its content id) or a plain file (the empty placeholder
file the fast path of `open_chroot_dir` writes at the source name).
-/

namespace GStage4

/-- A top-level entry of the working directory: a directory tree
(identified by an opaque content id) or a regular file. -/
inductive Entry where
  | dir (content : Nat)
  | file
deriving DecidableEq, Repr

def Entry.isDir : Entry → Bool
  | .dir _ => true
  | .file => false

/-- The working directory: its top level entries, keyed by name. -/
abbrev Store := List (String × Entry)

/-- `WorkDir._CURRENT`, the reserved name of the open view. -/
def CURRENT : String := "cur"

/-- Lookup of a name among the top-level entries (`os.path.lexists` /
reading the entry). -/
def lookupKey : Store → String → Option Entry
  | [], _ => none
  | (k, e) :: rest, n => if k = n then some e else lookupKey rest n

/-- `os.path.lexists` on a top-level name. -/
def lexists (s : Store) (n : String) : Bool := (lookupKey s n).isSome

/-- Deletion of the entry named `n` (`os.rename` away / `rm`). -/
def removeKey : Store → String → Store
  | [], _ => []
  | (k, e) :: rest, n => if k = n then removeKey rest n else (k, e) :: removeKey rest n

/-- (Over)write the entry named `n` with `e`. -/
def setEntry (s : Store) (n : String) (e : Entry) : Store :=
  (n, e) :: removeKey s n

/-- `WorkDir.get_old_chroot_dir_names`: every top-level name other than
`cur` that is a directory. -/
def get_old_chroot_dir_names : Store → List String
  | [] => []
  | (k, e) :: rest =>
    if k ≠ CURRENT ∧ e.isDir then k :: get_old_chroot_dir_names rest
    else get_old_chroot_dir_names rest

/-- A store is well-formed when its top-level names are distinct (a real
directory cannot hold two entries of the same name). -/
def storeWF (s : Store) : Prop := (s.map Prod.fst).Nodup

instance (s : Store) : Decidable (storeWF s) := by
  unfold storeWF; infer_instance

/-- `WorkDir.open_chroot_dir`.  `none` models an `AssertionError`.
The fast (non-rollback) path renames the source snapshot to `cur` and
writes an empty file at the source name; the rollback path copies the
tree (`/bin/cp -r`), leaving the source intact.  With no source name an
empty `cur` directory is created (content id `0`). -/
def open_chroot_dir (rollback : Bool) (s : Store) (fromName : Option String) :
    Option Store :=
  if lexists s CURRENT then none
  else
    match fromName with
    | some fn =>
      if fn ∈ get_old_chroot_dir_names s then
        match lookupKey s fn with
        | some (Entry.dir c) =>
          if rollback then
            some ((CURRENT, Entry.dir c) :: s)
          else
            some ((CURRENT, Entry.dir c) :: setEntry s fn Entry.file)
        | _ => none
      else none
    | none => some ((CURRENT, Entry.dir 0) :: s)

/-- `WorkDir.close_chroot_dir`.  `none` models an `AssertionError`.
Sealing moves `cur` to `toName` (a robust `mv`); with no name the view is
discarded (`rm`). -/
def close_chroot_dir (s : Store) (toName : Option String) : Option Store :=
  if lexists s CURRENT then
    match toName with
    | some tn =>
      if tn ≠ CURRENT ∧ tn ∉ get_old_chroot_dir_names s then
        match lookupKey s CURRENT with
        | some e => some (setEntry (removeKey s CURRENT) tn e)
        | none => none
      else none
    | none => some (removeKey s CURRENT)
  else none

/-- Content of the open view, when present. -/
def curContent (s : Store) : Option Nat :=
  match lookupKey s CURRENT with
  | some (Entry.dir c) => some c
  | _ => none

/-! ## The build pipeline state machine (`_builder.py`) -/

/-- The symbolic names of the `BuildProgress` enum, by ordinal
(`enum.auto` numbers the members from 1). -/
def stepName : Nat → String
  | 1 => "STEP_INIT"
  | 2 => "STEP_UNPACKED"
  | 3 => "STEP_REPOSITORIES_INITIALIZED"
  | 4 => "STEP_CONFDIR_INITIALIZED"
  | 5 => "STEP_WORLD_SET_UPDATED"
  | 6 => "STEP_KERNEL_INSTALLED"
  | 7 => "STEP_SYSTEM_CONFIGURED"
  | 8 => "STEP_CLEANED_UP"
  | _ => "INVALID"

/-- `Builder._getChrootDirName`: `"%02d-%s" % (progress.value, progress.name)`. -/
def getChrootDirName (p : Nat) : String :=
  (if p < 10 then "0" ++ toString p else toString p) ++ "-" ++ stepName p

/-- The mutable fields of `Builder` that the `Action` wrapper touches:
the progress marker and the on-disk store. -/
structure BuilderState where
  progress : Nat
  store : Store
deriving DecidableEq, Repr

/-- `sorted(l) == l` for a list of ordinals. -/
def listSortedB : List Nat → Bool
  | [] => true
  | [_] => true
  | a :: b :: rest => decide (a ≤ b) && listSortedB (b :: rest)

/-- `progressStepList[-1]` (the last declared precondition; `0` is never
reached because the wrapper first checks membership of the marker). -/
def lastOrd : List Nat → Nat
  | [] => 0
  | [a] => a
  | _ :: b :: rest => lastOrd (b :: rest)

/-- The `Action(*progressStepList)` decorator of `_builder.py`.  The body
is abstracted to a fallible transformation of the open view's tree.  A
raised exception is modelled as `Except.error (message, state at raise)`:
the `Builder` object's fields keep whatever values they had when the
exception propagated (the wrapper installs no handler).  The marker
assignment `BuildProgress(progressStepList[-1] + 1)` precedes the close
and raises `ValueError` when the ordinal is out of the enum's range. -/
def runAction (rollback : Bool) (pre : List Nat) (body : Nat → Except String Nat)
    (st : BuilderState) : Except (String × BuilderState) BuilderState :=
  if ¬ listSortedB pre then .error ("AssertionError", st)
  else if st.progress ∉ pre then .error ("OutOfOrderAction", st)
  else
    match open_chroot_dir rollback st.store (some (getChrootDirName st.progress)) with
    | none => .error ("AssertionError", st)
    | some s1 =>
      match curContent s1 with
      | none => .error ("AssertionError", { st with store := s1 })
      | some c =>
        match body c with
        | .error e => .error (e, { st with store := s1 })
        | .ok c2 =>
          if lastOrd pre + 1 ≤ 8 then
            match close_chroot_dir (setEntry s1 CURRENT (Entry.dir c2))
                (some (getChrootDirName (lastOrd pre + 1))) with
            | none => .error ("AssertionError",
                ⟨lastOrd pre + 1, setEntry s1 CURRENT (Entry.dir c2)⟩)
            | some s3 => .ok ⟨lastOrd pre + 1, s3⟩
          else .error ("ValueError", { st with store := setEntry s1 CURRENT (Entry.dir c2) })

/-! ## Target settings validation (`_TargetSettings.__init__`) -/

/-- The keys of the target-settings dictionary that the claims need;
`none` models an absent key. -/
structure TargetSettingsIn where
  install_list : Option (List String)
  world_set : Option (List String)
deriving Repr

structure TSettings where
  install_list : List String
  world_set : List String
deriving Repr

/-- `_TargetSettings.__init__`, restricted to the `install_list` /
`world_set` handling: `world_set` is rejected with a `SettingsError` when
it shares an element with `install_list`. -/
def targetSettingsInit (s : TargetSettingsIn) : Except String TSettings :=
  let il := s.install_list.getD []
  match s.world_set with
  | some ws =>
    if ws.any (fun p => decide (p ∈ il)) then
      .error "same element found in install_list and world_set"
    else .ok ⟨il, ws⟩
  | none => .ok ⟨il, []⟩

/-- `Builder.__init__`: validates the target settings, then opens a fresh
`cur` view, sets the marker to `STEP_INIT` and seals the view under the
initial canonical name.  A `SettingsError` propagates before any store
operation runs. -/
def builderInit (rollback : Bool) (tsIn : TargetSettingsIn) (store : Store) :
    Except String (TSettings × BuilderState) :=
  match targetSettingsInit tsIn with
  | .error e => .error e
  | .ok ts =>
    match open_chroot_dir rollback store none with
    | none => .error "AssertionError"
    | some s1 =>
      match close_chroot_dir s1 (some (getChrootDirName 1)) with
      | none => .error "AssertionError"
      | some s2 => .ok (ts, ⟨1, s2⟩)

/-! ## Parallelism derivation (`TargetConfDir.write_make_conf` and
`Builder.action_install_kernel`) -/

/-- `ComputingPower`: the host compute-capacity hints. -/
structure ComputingPower where
  cpu_core_count : Nat
  memory_size : Nat
  cooling_level : Nat
deriving Repr

/-- The high-memory threshold used by both derivations: 24 GiB. -/
def MEMORY_THRESHOLD : Nat := 24 * 1024 * 1024 * 1024

/-- The three values derived in `TargetConfDir.write_make_conf`. -/
structure MakeConfParallelism where
  jobcountMake : Nat
  jobcountEmerge : Nat
  loadavg : Nat
deriving DecidableEq, Repr

/-- The parallelism derivation of `TargetConfDir.write_make_conf`. -/
def makeConfParallelism (cp : ComputingPower) : MakeConfParallelism :=
  if cp.cooling_level ≤ 1 then
    ⟨1, 1, 1⟩
  else if cp.memory_size ≥ MEMORY_THRESHOLD then
    ⟨cp.cpu_core_count + 2, cp.cpu_core_count, cp.cpu_core_count⟩
  else
    ⟨cp.cpu_core_count, cp.cpu_core_count, max 1 (cp.cpu_core_count - 1)⟩

/-- The `(tj, tl)` pair derived in `Builder.action_install_kernel` and
passed to `genkernel --makeopts`. -/
def kernelParallelism (cp : ComputingPower) : Nat × Nat :=
  if cp.cooling_level ≤ 1 then
    (1, 1)
  else if cp.memory_size ≥ MEMORY_THRESHOLD then
    (cp.cpu_core_count + 2, cp.cpu_core_count)
  else
    (cp.cpu_core_count, max 1 (cp.cpu_core_count - 1))

/-! ## Install-list ordering (`Builder.action_update_world_set`) -/

def ccachePkg : String := "dev-util/ccache"

/-- The fixed priority-reorder list `ORDER` of `action_update_world_set`. -/
def ORDER : List String := [ccachePkg]

/-- The reorder loop: for each `pkg` of `reversed(ORDER)` present in the
list, `remove` its first occurrence and `insert` it at position 0. -/
def orderInstallList (l : List String) : List String :=
  ORDER.reverse.foldl
    (fun acc pkg => if pkg ∈ acc then pkg :: acc.erase pkg else acc) l

/-- The install candidates of `action_update_world_set`: the
not-yet-installed members of `install_list`, then the not-yet-installed
members of `world_set`, in input order. -/
def candidateList (isInstalled : String → Bool)
    (install_list world_set : List String) : List String :=
  install_list.filter (fun p => !isInstalled p)
    ++ world_set.filter (fun p => !isInstalled p)

/-- The install-list assembly of `action_update_world_set`: the
candidates, reordered by `orderInstallList`. -/
def computeInstallList (isInstalled : String → Bool)
    (install_list world_set : List String) : List String :=
  orderInstallList (candidateList isInstalled install_list world_set)

/-! ## The chroot session (`WorkDirChrooter` of `_workdir.py` and
`_Chrooter` of `_builder.py`)

The OS mount table and the session's own records are tracked separately:
a shell command that mounts something adds the target to `osMounts`,
while `self._mountList.append(...)` / `self._bindMountList.append(...)`
add it to the corresponding record.  Failure is injected through
`failAt`: the primitive shell calls of a bind are numbered in execution
order and `failAt = some k` makes the `k`-th call raise (covering both a
failed command and a failed `assert` at that attachment). -/

/-- The session state: the OS mount table (targets, in mount order), the
`_mountList` record, the `_bindMountList` record (`none` while the
attribute does not exist), the script scratch directories and the copied
resolv.conf. -/
structure MState where
  osMounts : List String
  mountList : List String
  bindMountList : Option (List String)
  scriptDirList : List String
  resolvConf : Bool
deriving DecidableEq, Repr

def initMState : MState := ⟨[], [], none, [], false⟩

def procPath : String := "proc"
def sysPath : String := "sys"
def devPath : String := "dev"
def tmpPath : String := "tmp"
def logPath : String := "var/log/portage"
def distPath : String := "var/cache/distfiles"
def binpkgPath : String := "var/cache/binpkgs"
def ccachePath : String := "var/tmp/ccache"

/-- The mounts of `WorkDirChrooter.bind`, in attachment order. -/
def basePaths : List String := [procPath, sysPath, devPath, tmpPath]

/-- The `for fullfn in reversed(...)` unmount loop of
`WorkDirChrooter._unbind`: each target still mounted is lazily unmounted
(and logged); others are skipped.  Returns the remaining mount table and
the unmount log in execution order. -/
def umountChecked : List String → List String → List String × List String
  | os, [] => (os, [])
  | os, fn :: rest =>
    if fn ∈ os then
      let r := umountChecked (os.erase fn) rest
      (r.1, fn :: r.2)
    else umountChecked os rest

/-- The unmount loop of `_Chrooter.unbind`: `Util.cmdCall` is issued for
every recorded target, without a mounted-check. -/
def umountForced : List String → List String → List String × List String
  | os, [] => (os, [])
  | os, fn :: rest =>
    let r := umountForced (os.erase fn) rest
    (r.1, fn :: r.2)

/-- `WorkDirChrooter._unbind`: unmount the recorded mounts in reverse
order, clear the record, remove the copied resolv.conf, remove the
script scratch directories. -/
def wdcUnbindInternal (st : MState) : MState × List String :=
  let r := umountChecked st.osMounts st.mountList.reverse
  (⟨r.1, [], st.bindMountList, [], false⟩, r.2)

/-- `WorkDirChrooter.unbind`: asserts at least one recorded mount, then
runs `_unbind`.  `none` models the `AssertionError`. -/
def wdcUnbind (st : MState) : Option (MState × List String) :=
  if st.mountList.isEmpty then none else some (wdcUnbindInternal st)

/-- `_Chrooter.unbind`: unmount the recorded bind mounts in reverse
order (when the `_bindMountList` attribute exists), delete the
attribute, then `super().unbind()`. -/
def chrooterUnbind (st : MState) : Option (MState × List String) :=
  let r :=
    match st.bindMountList with
    | some b => umountForced st.osMounts b.reverse
    | none => (st.osMounts, [])
  let st1 : MState := ⟨r.1, st.mountList, none, st.scriptDirList, st.resolvConf⟩
  match wdcUnbind st1 with
  | none => none
  | some (st2, log2) => some (st2, r.2 ++ log2)

/-- `WorkDirChrooter.bind`.  Primitive calls, in order: 0 `cp` of
resolv.conf; 1 mount of proc (then record); 2 `--rbind` of sys;
3 `--make-rslave` of sys (then record); 4 `--rbind` of dev;
5 `--make-rslave` of dev (then record); 6 mount of tmp (then record).
Any failure runs `self._unbind()` and re-raises; the error carries the
unwound state and the unmount log of the unwind. -/
def wdcBind (failAt : Option Nat) (st0 : MState) :
    Except (MState × List String) MState :=
  if failAt = some 0 then .error (wdcUnbindInternal st0) else
  let st1 : MState := { st0 with resolvConf := true }
  if failAt = some 1 then .error (wdcUnbindInternal st1) else
  let st2 : MState := { st1 with osMounts := st1.osMounts ++ [procPath],
                                 mountList := st1.mountList ++ [procPath] }
  if failAt = some 2 then .error (wdcUnbindInternal st2) else
  let st3 : MState := { st2 with osMounts := st2.osMounts ++ [sysPath] }
  if failAt = some 3 then .error (wdcUnbindInternal st3) else
  let st4 : MState := { st3 with mountList := st3.mountList ++ [sysPath] }
  if failAt = some 4 then .error (wdcUnbindInternal st4) else
  let st5 : MState := { st4 with osMounts := st4.osMounts ++ [devPath] }
  if failAt = some 5 then .error (wdcUnbindInternal st5) else
  let st6 : MState := { st5 with mountList := st5.mountList ++ [devPath] }
  if failAt = some 6 then .error (wdcUnbindInternal st6) else
  .ok { st6 with osMounts := st6.osMounts ++ [tmpPath],
                 mountList := st6.mountList ++ [tmpPath] }

/-- The configuration that decides which conditional bind mounts
`_Chrooter.bind` performs. -/
structure SessionCfg where
  hasDistdir : Bool
  hasBinpkgdir : Bool
  hasCcachedir : Bool
  repoHostDirs : List String
deriving Repr

/-- The bind-mount targets of `_Chrooter.bind`, in attachment order: the
log directory always, then the conditional distfile / binary-package /
ccache caches, then one target per bind-mounted repository. -/
def bindTargets (cfg : SessionCfg) : List String :=
  [logPath]
  ++ (if cfg.hasDistdir then [distPath] else [])
  ++ (if cfg.hasBinpkgdir then [binpkgPath] else [])
  ++ (if cfg.hasCcachedir then [ccachePath] else [])
  ++ cfg.repoHostDirs

/-- The attachment loop of `_Chrooter.bind`'s `try` block: one primitive
call per target (assert + mount, then record).  On failure the error
carries the state at the raise, before any unwind. -/
def chrooterBindLoop (failAt : Option Nat) : Nat → List String → MState →
    Except MState MState
  | _, [], st => .ok st
  | k, p :: rest, st =>
    if failAt = some k then .error st
    else chrooterBindLoop failAt (k + 1) rest
      { st with osMounts := st.osMounts ++ [p],
                bindMountList := st.bindMountList.map (fun b => b ++ [p]) }

/-- `_Chrooter.bind` run on a fresh session: `super().bind()` (whose own
handler unwinds base failures), then `self._bindMountList = []`, then
the bind-mount attachments, unwinding through `self.unbind()` on
failure.  The error carries the state after the unwind together with the
unmount log the unwind emitted. -/
def chrooterBind (failAt : Option Nat) (cfg : SessionCfg) :
    Except (MState × List String) MState :=
  match wdcBind failAt initMState with
  | .error r => .error r
  | .ok st =>
    let st1 : MState := { st with bindMountList := some [] }
    match chrooterBindLoop failAt 7 (bindTargets cfg) st1 with
    | .ok st2 => .ok st2
    | .error stf =>
      match chrooterUnbind stf with
      | some r => .error r
      | none => .error (stf, [])
      -- the `none` arm is unreachable: the base bind recorded four mounts

/-! ## Concrete fixtures used by witnesses and counterexamples -/

/-- A store as left by `Builder.__init__`: the sealed initial snapshot. -/
def store0 : Store := [("01-STEP_INIT", Entry.dir 0)]

/-- A store sealed at `STEP_WORLD_SET_UPDATED`. -/
def store5 : Store := [("05-STEP_WORLD_SET_UPDATED", Entry.dir 0)]

/-- A session configuration with no optional cache mounts and no
bind-mounted repositories. -/
def cfg0 : SessionCfg := ⟨false, false, false, []⟩

/-- A session configuration with every conditional mount enabled and one
bind-mounted repository. -/
def cfg1 : SessionCfg := ⟨true, true, true, ["var/db/overlays/foo"]⟩

/-! ## Lemmas about the store operations -/

theorem lookupKey_cons (k : String) (e : Entry) (s : Store) (n : String) :
    lookupKey ((k, e) :: s) n = if k = n then some e else lookupKey s n := rfl

theorem lookupKey_setEntry_self (s : Store) (n : String) (e : Entry) :
    lookupKey (setEntry s n e) n = some e := by
  simp [setEntry, lookupKey]

theorem lookupKey_removeKey_ne (s : Store) (n m : String) (h : m ≠ n) :
    lookupKey (removeKey s n) m = lookupKey s m := by
  induction s with
  | nil => rfl
  | cons p rest ih =>
    obtain ⟨k, e⟩ := p
    by_cases hk : k = n
    · subst hk
      simp [removeKey, lookupKey, ih, Ne.symm h]
    · simp [removeKey, hk, lookupKey]
      split <;> simp [ih]

theorem lookupKey_removeKey_self (s : Store) (n : String) :
    lookupKey (removeKey s n) n = none := by
  induction s with
  | nil => rfl
  | cons p rest ih =>
    obtain ⟨k, e⟩ := p
    by_cases hk : k = n
    · simp [removeKey, hk, ih]
    · simp [removeKey, hk, lookupKey, ih]

theorem lookupKey_setEntry_ne (s : Store) (n m : String) (e : Entry) (h : m ≠ n) :
    lookupKey (setEntry s n e) m = lookupKey s m := by
  simp [setEntry, lookupKey, Ne.symm h, lookupKey_removeKey_ne s n m h]

theorem mem_get_old_of_lookup {s : Store} {fn : String} {c : Nat}
    (hfn : lookupKey s fn = some (Entry.dir c)) (hne : fn ≠ CURRENT) :
    fn ∈ get_old_chroot_dir_names s := by
  induction s with
  | nil => simp [lookupKey] at hfn
  | cons p rest ih =>
    obtain ⟨k, e⟩ := p
    rw [lookupKey_cons] at hfn
    by_cases hk : k = fn
    · subst hk
      simp at hfn
      subst hfn
      simp [get_old_chroot_dir_names, hne, Entry.isDir]
    · rw [if_neg hk] at hfn
      have := ih hfn
      unfold get_old_chroot_dir_names
      split <;> simp [this]

theorem not_mem_get_old_removeKey (s : Store) (n : String) :
    n ∉ get_old_chroot_dir_names (removeKey s n) := by
  induction s with
  | nil => simp [removeKey, get_old_chroot_dir_names]
  | cons p rest ih =>
    obtain ⟨k, e⟩ := p
    by_cases hk : k = n
    · simpa [removeKey, hk] using ih
    · simp only [removeKey, if_neg hk]
      unfold get_old_chroot_dir_names
      split
      · intro hmem
        rcases List.mem_cons.mp hmem with h | h
        · exact hk h.symm
        · exact ih h
      · exact ih

/-- The fast (non-rollback) path of `open_chroot_dir`: the source
snapshot is renamed to `cur` and an empty file is written at its name. -/
theorem open_fast_spec {s : Store} {fn : String} {c : Nat}
    (hcur : lookupKey s CURRENT = none)
    (hfn : lookupKey s fn = some (Entry.dir c)) (hne : fn ≠ CURRENT) :
    open_chroot_dir false s (some fn) =
      some ((CURRENT, Entry.dir c) :: setEntry s fn Entry.file) := by
  have hmem : fn ∈ get_old_chroot_dir_names s := mem_get_old_of_lookup hfn hne
  unfold open_chroot_dir
  simp [lexists, hcur, hmem, hfn]

/-- The rollback-preserving path of `open_chroot_dir`: the tree is
copied into a fresh `cur` and the source snapshot is left intact. -/
theorem open_rollback_spec {s : Store} {fn : String} {c : Nat}
    (hcur : lookupKey s CURRENT = none)
    (hfn : lookupKey s fn = some (Entry.dir c)) (hne : fn ≠ CURRENT) :
    open_chroot_dir true s (some fn) = some ((CURRENT, Entry.dir c) :: s) := by
  have hmem : fn ∈ get_old_chroot_dir_names s := mem_get_old_of_lookup hfn hne
  unfold open_chroot_dir
  simp [lexists, hcur, hmem, hfn]

/-- Inversion of a successful `close_chroot_dir` under a target name. -/
theorem close_ok_inv {s : Store} {tn : String} {s' : Store}
    (h : close_chroot_dir s (some tn) = some s') :
    tn ≠ CURRENT ∧ tn ∉ get_old_chroot_dir_names s ∧
      ∃ e, lookupKey s CURRENT = some e ∧ s' = setEntry (removeKey s CURRENT) tn e := by
  by_cases hlex : lexists s CURRENT = true
  · by_cases hcond : tn ≠ CURRENT ∧ tn ∉ get_old_chroot_dir_names s
    · rcases heqc : lookupKey s CURRENT with _ | e
      · simp [close_chroot_dir, hlex, hcond, heqc] at h
      · refine ⟨hcond.1, hcond.2, e, rfl, ?_⟩
        simp [close_chroot_dir, hlex, hcond, heqc] at h
        exact h.symm
    · simp [close_chroot_dir, hlex, hcond] at h
  · simp [close_chroot_dir, hlex] at h

/-! ## Lemmas about the action wrapper -/

theorem lastOrd_mem : ∀ {l : List Nat}, l ≠ [] → lastOrd l ∈ l
  | [], h => absurd rfl h
  | [a], _ => by simp [lastOrd]
  | _ :: b :: rest, _ => by
    simpa [lastOrd] using Or.inr (lastOrd_mem (l := b :: rest) (by simp))

theorem le_lastOrd : ∀ {l : List Nat}, listSortedB l = true → ∀ x ∈ l, x ≤ lastOrd l
  | [], _, x, hx => absurd hx (List.not_mem_nil x)
  | [a], _, x, hx => by
    simp at hx
    simp [hx, lastOrd]
  | a :: b :: rest, h, x, hx => by
    simp only [listSortedB, Bool.and_eq_true, decide_eq_true_eq] at h
    have hrec := le_lastOrd (l := b :: rest) h.2
    have hb : b ≤ lastOrd (b :: rest) := hrec b (by simp)
    rcases List.mem_cons.mp hx with rfl | hx2
    · calc x ≤ b := h.1
        _ ≤ lastOrd (b :: rest) := hb
        _ = lastOrd (x :: b :: rest) := by simp [lastOrd]
    · simpa [lastOrd] using hrec x hx2

/-- Inversion of a successful action run: the intermediate values the
wrapper went through. -/
theorem runAction_ok_inv {rollback : Bool} {pre : List Nat}
    {body : Nat → Except String Nat} {st st' : BuilderState}
    (h : runAction rollback pre body st = .ok st') :
    listSortedB pre = true ∧ st.progress ∈ pre ∧
      st'.progress = lastOrd pre + 1 ∧
      ∃ s1 c c2, open_chroot_dir rollback st.store (some (getChrootDirName st.progress)) = some s1 ∧
        curContent s1 = some c ∧ body c = .ok c2 ∧
        close_chroot_dir (setEntry s1 CURRENT (Entry.dir c2))
          (some (getChrootDirName (lastOrd pre + 1))) = some st'.store := by
  by_cases hs : listSortedB pre = true
  · by_cases hp : st.progress ∈ pre
    · rcases heqo : open_chroot_dir rollback st.store (some (getChrootDirName st.progress))
          with _ | s1
      · simp [runAction, hs, hp, heqo] at h
      · rcases heqc : curContent s1 with _ | c
        · simp [runAction, hs, hp, heqo, heqc] at h
        · rcases heqb : body c with e | c2
          · simp [runAction, hs, hp, heqo, heqc, heqb] at h
          · by_cases hle : lastOrd pre + 1 ≤ 8
            · rcases heqcl : close_chroot_dir (setEntry s1 CURRENT (Entry.dir c2))
                  (some (getChrootDirName (lastOrd pre + 1))) with _ | s3
              · simp [runAction, hs, hp, heqo, heqc, heqb, hle, heqcl] at h
              · simp [runAction, hs, hp, heqo, heqc, heqb, hle, heqcl] at h
                subst h
                exact ⟨hs, hp, rfl, s1, c, c2, rfl, heqc, heqb, heqcl⟩
            · simp [runAction, hs, hp, heqo, heqc, heqb, hle] at h
    · simp [runAction, hs, hp] at h
  · simp [runAction, hs] at h

/-- Claim C1 (amended): on body failure the action wrapper propagates the
failure unchanged (no auto-retry) and the progress marker keeps its
pre-action value, but the `cur` view is not discarded: it remains,
holding the tree of the pre-action snapshot.  In fast-path mode the
snapshot's canonical name now holds only the empty placeholder file; in
rollback-preserving mode the snapshot is left intact for inspection.
Because `cur` still exists, re-invoking any action from the resulting
state fails the `open_chroot_dir` assertion: the store is not left in a
state from which the same action can simply be re-invoked. -/
theorem C1_body_failure (rollback : Bool) (pre : List Nat)
    (body : Nat → Except String Nat) (st : BuilderState) (c : Nat) (e : String)
    (hs : listSortedB pre = true) (hp : st.progress ∈ pre)
    (hcur : lookupKey st.store CURRENT = none)
    (hsnap : lookupKey st.store (getChrootDirName st.progress) = some (Entry.dir c))
    (hname : getChrootDirName st.progress ≠ CURRENT)
    (hbody : body c = .error e) :
    ∃ s1, runAction rollback pre body st = .error (e, ⟨st.progress, s1⟩) ∧
      lookupKey s1 CURRENT = some (Entry.dir c) ∧
      (rollback = false → lookupKey s1 (getChrootDirName st.progress) = some Entry.file) ∧
      (rollback = true → lookupKey s1 (getChrootDirName st.progress) = some (Entry.dir c)) ∧
      (∀ pre2 body2, listSortedB pre2 = true → st.progress ∈ pre2 →
        runAction rollback pre2 body2 ⟨st.progress, s1⟩ =
          .error ("AssertionError", ⟨st.progress, s1⟩)) := by
  cases rollback
  · refine ⟨(CURRENT, Entry.dir c) :: setEntry st.store (getChrootDirName st.progress) Entry.file,
      ?_, ?_, ?_, ?_, ?_⟩
    · have ho := open_fast_spec hcur hsnap hname
      simp [runAction, hs, hp, ho, curContent, lookupKey_cons, CURRENT, hbody]
    · simp [lookupKey_cons]
    · intro _
      rw [lookupKey_cons, if_neg (Ne.symm hname), lookupKey_setEntry_self]
    · intro hcontra
      exact absurd hcontra (by simp)
    · intro pre2 body2 hs2 hp2
      have hcur2 : lexists ((CURRENT, Entry.dir c) ::
          setEntry st.store (getChrootDirName st.progress) Entry.file) CURRENT = true := by
        simp [lexists, lookupKey_cons]
      simp [runAction, hs2, hp2, open_chroot_dir, hcur2]
  · refine ⟨(CURRENT, Entry.dir c) :: st.store, ?_, ?_, ?_, ?_, ?_⟩
    · have ho := open_rollback_spec hcur hsnap hname
      simp [runAction, hs, hp, ho, curContent, lookupKey_cons, CURRENT, hbody]
    · simp [lookupKey_cons]
    · intro hcontra
      exact absurd hcontra (by simp)
    · intro _
      rw [lookupKey_cons, if_neg (Ne.symm hname)]
      exact hsnap
    · intro pre2 body2 hs2 hp2
      have hcur2 : lexists ((CURRENT, Entry.dir c) :: st.store) CURRENT = true := by
        simp [lexists, lookupKey_cons]
      simp [runAction, hs2, hp2, open_chroot_dir, hcur2]

/-- Claim C1 (witness): concrete fast-path instance of the body-failure
theorem, at the sealed initial store. -/
theorem C1_witness :
    ∃ s1, runAction false [1] (fun _ => Except.error "boom") ⟨1, store0⟩ =
        .error ("boom", ⟨1, s1⟩) ∧
      lookupKey s1 CURRENT = some (Entry.dir 0) ∧
      (false = false → lookupKey s1 (getChrootDirName 1) = some Entry.file) ∧
      (false = true → lookupKey s1 (getChrootDirName 1) = some (Entry.dir 0)) ∧
      (∀ pre2 body2, listSortedB pre2 = true → (1 : Nat) ∈ pre2 →
        runAction false pre2 body2 ⟨1, s1⟩ = .error ("AssertionError", ⟨1, s1⟩)) :=
  C1_body_failure false [1] (fun _ => Except.error "boom") ⟨1, store0⟩ 0 "boom"
    (by decide) (by decide) (by decide) (by decide) (by decide) rfl

/-- Claim C1 (counterexample to the claim as stated): with the fast-path
store, a failing body leaves `cur` present (not discarded) and leaves
only an empty placeholder file — not the sealed snapshot — under the
pre-action snapshot's name, while the failure is propagated with the
marker unchanged. -/
theorem C1_counterexample :
    runAction false [1] (fun _ => Except.error "boom") ⟨1, store0⟩ =
      .error ("boom", ⟨1, [(CURRENT, Entry.dir 0), ("01-STEP_INIT", Entry.file)]⟩) ∧
    lexists [(CURRENT, Entry.dir 0), ("01-STEP_INIT", Entry.file)] CURRENT = true ∧
    lookupKey [(CURRENT, Entry.dir 0), ("01-STEP_INIT", Entry.file)] "01-STEP_INIT" ≠
      some (Entry.dir 0) :=
  ⟨rfl, rfl, by decide⟩

/-- Claim C5: an action runs only when the marker is among its declared
preconditions — otherwise it fails with the out-of-order error before
any side effect on the store (the error state is exactly the input
state) — and on success the marker becomes exactly one past the final
(largest) declared precondition. -/
theorem C5_precondition_guard (rollback : Bool) (pre : List Nat)
    (body : Nat → Except String Nat) (st : BuilderState)
    (hs : listSortedB pre = true) :
    (st.progress ∉ pre → runAction rollback pre body st = .error ("OutOfOrderAction", st)) ∧
    (∀ st', runAction rollback pre body st = .ok st' →
      st'.progress = lastOrd pre + 1 ∧ lastOrd pre ∈ pre ∧ ∀ x ∈ pre, x ≤ lastOrd pre) := by
  constructor
  · intro hnp
    simp [runAction, hs, hnp]
  · intro st' h
    obtain ⟨hs', hp, hprog, _⟩ := runAction_ok_inv h
    exact ⟨hprog, lastOrd_mem (List.ne_nil_of_mem hp), le_lastOrd hs⟩

/-- Claim C5 (witness): `action_unpack`'s precondition list, invoked with
the marker already advanced past it. -/
theorem C5_witness :
    runAction false [1] (fun c => Except.ok c) ⟨2, store0⟩ =
      .error ("OutOfOrderAction", ⟨2, store0⟩) :=
  (C5_precondition_guard false [1] (fun c => Except.ok c) ⟨2, store0⟩ (by decide)).1
    (by decide)

/-- Claim C6 (amended): on success the marker becomes exactly one past
the action's largest declared precondition — which is an advance of
exactly one only when the action started from that largest precondition;
an action with several declared preconditions (`action_config_system`)
run from an earlier one jumps further — and the view is sealed under the
new marker's canonical name, `cur` being gone. -/
theorem C6_marker_advance (rollback : Bool) (pre : List Nat)
    (body : Nat → Except String Nat) (st st' : BuilderState)
    (h : runAction rollback pre body st = .ok st') :
    st'.progress = lastOrd pre + 1 ∧
    (st.progress = lastOrd pre → st'.progress = st.progress + 1) ∧
    (∃ c2, lookupKey st'.store (getChrootDirName st'.progress) = some (Entry.dir c2)) ∧
    lookupKey st'.store CURRENT = none := by
  obtain ⟨hs, hp, hprog, s1, c, c2, ho, hc, hb, hcl⟩ := runAction_ok_inv h
  rw [← hprog] at hcl
  obtain ⟨hne, hnot, e, hcur, hstore⟩ := close_ok_inv hcl
  have hcur2 : lookupKey (setEntry s1 CURRENT (Entry.dir c2)) CURRENT = some (Entry.dir c2) :=
    lookupKey_setEntry_self s1 CURRENT (Entry.dir c2)
  rw [hcur2] at hcur
  injection hcur with hcur
  subst hcur
  refine ⟨hprog, fun hpl => by rw [hprog, hpl], ⟨c2, ?_⟩, ?_⟩
  · rw [hstore, lookupKey_setEntry_self]
  · rw [hstore, lookupKey_setEntry_ne _ _ _ _ (Ne.symm hne), lookupKey_removeKey_self]

/-- Claim C6 (witness): the marker-advance theorem applied to a concrete
successful run. -/
theorem C6_witness :
    ∃ c2, lookupKey [("07-STEP_SYSTEM_CONFIGURED", Entry.dir 0),
        ("05-STEP_WORLD_SET_UPDATED", Entry.file)] (getChrootDirName 7) =
      some (Entry.dir c2) :=
  (C6_marker_advance false [5, 6] (fun c => Except.ok c) ⟨5, store5⟩
      ⟨7, [("07-STEP_SYSTEM_CONFIGURED", Entry.dir 0),
           ("05-STEP_WORLD_SET_UPDATED", Entry.file)]⟩ rfl).2.2.1

/-- Claim C6 (counterexample to the claim as stated): `action_config_system`
declares preconditions `[5, 6]`; run successfully from the legal marker
value `5` it sets the marker to `7`, an advance of two, not one. -/
theorem C6_counterexample :
    runAction false [5, 6] (fun c => Except.ok c) ⟨5, store5⟩ =
      .ok ⟨7, [("07-STEP_SYSTEM_CONFIGURED", Entry.dir 0),
               ("05-STEP_WORLD_SET_UPDATED", Entry.file)]⟩ ∧
    (7 : Nat) ≠ 5 + 1 :=
  ⟨rfl, by decide⟩

/-- Claim C9 (amended): opening a view from an existing sealed snapshot
follows exactly the strategy fixed by the store's construction-time
`rollback` flag.  Fast path: the snapshot is renamed to `cur` and the
source name ceases to be a sealed snapshot — but an empty placeholder
file is left under the source name, so an entry does remain there.
Rollback mode: the tree is copied into a fresh `cur` and the source
snapshot is left intact. -/
theorem C9_open_strategies (s : Store) (fn : String) (c : Nat)
    (hcur : lookupKey s CURRENT = none)
    (hfn : lookupKey s fn = some (Entry.dir c)) (hne : fn ≠ CURRENT) :
    (open_chroot_dir false s (some fn) =
        some ((CURRENT, Entry.dir c) :: setEntry s fn Entry.file) ∧
      lookupKey ((CURRENT, Entry.dir c) :: setEntry s fn Entry.file) CURRENT =
        some (Entry.dir c) ∧
      lookupKey ((CURRENT, Entry.dir c) :: setEntry s fn Entry.file) fn = some Entry.file ∧
      fn ∉ get_old_chroot_dir_names ((CURRENT, Entry.dir c) :: setEntry s fn Entry.file)) ∧
    (open_chroot_dir true s (some fn) = some ((CURRENT, Entry.dir c) :: s) ∧
      lookupKey ((CURRENT, Entry.dir c) :: s) CURRENT = some (Entry.dir c) ∧
      lookupKey ((CURRENT, Entry.dir c) :: s) fn = some (Entry.dir c)) := by
  refine ⟨⟨open_fast_spec hcur hfn hne, ?_, ?_, ?_⟩,
    open_rollback_spec hcur hfn hne, ?_, ?_⟩
  · simp [lookupKey_cons]
  · rw [lookupKey_cons, if_neg (Ne.symm hne), lookupKey_setEntry_self]
  · have h1 : get_old_chroot_dir_names ((CURRENT, Entry.dir c) :: setEntry s fn Entry.file) =
        get_old_chroot_dir_names (removeKey s fn) := by
      simp [get_old_chroot_dir_names, setEntry, Entry.isDir]
    rw [h1]
    exact not_mem_get_old_removeKey s fn
  · simp [lookupKey_cons]
  · rw [lookupKey_cons, if_neg (Ne.symm hne)]
    exact hfn

/-- Claim C9 (witness): the strategy theorem applied to a concrete
one-snapshot store. -/
theorem C9_witness :
    open_chroot_dir true [("01-STEP_INIT", Entry.dir 3)] (some "01-STEP_INIT") =
      some [(CURRENT, Entry.dir 3), ("01-STEP_INIT", Entry.dir 3)] :=
  (C9_open_strategies [("01-STEP_INIT", Entry.dir 3)] "01-STEP_INIT" 3 rfl
      (by decide) (by decide)).2.1

/-- Claim C9 (counterexample to the claim as stated): the fast path does
not destroy every entry under the source name — it writes an empty
placeholder file there, so the name still exists (`lexists` is true),
even though it no longer counts as a sealed snapshot. -/
theorem C9_counterexample :
    open_chroot_dir false [("01-STEP_INIT", Entry.dir 3)] (some "01-STEP_INIT") =
      some [(CURRENT, Entry.dir 3), ("01-STEP_INIT", Entry.file)] ∧
    lexists [(CURRENT, Entry.dir 3), ("01-STEP_INIT", Entry.file)] "01-STEP_INIT" = true :=
  ⟨rfl, rfl⟩

/-! ## Lemmas about the install-list ordering -/

theorem filter_erase_ne (a : String) : ∀ l : List String,
    (l.erase a).filter (fun p => p ≠ a) = l.filter (fun p => p ≠ a)
  | [] => rfl
  | b :: t => by
    have ih := filter_erase_ne a t
    by_cases hb : b = a
    · subst hb
      simp [List.erase_cons, List.filter_cons]
    · simp only [ne_eq, decide_not] at ih ⊢
      simp [List.erase_cons, hb, List.filter_cons, ih]

theorem orderInstallList_eq (l : List String) (h : ccachePkg ∈ l) :
    orderInstallList l = ccachePkg :: l.erase ccachePkg := by
  simp [orderInstallList, ORDER, h]

/-- Claim C7: the parallelism derivations of `write_make_conf` and
`action_install_kernel`.  Minimum cooling tier forces every derived
value to 1; 8 cores with memory at or above the 24 GiB threshold give a
make job count of 10 and a load ceiling of 8; 8 cores below the
threshold give 8 jobs and a load ceiling of 7; with 1 core the load
ceiling never drops below 1. -/
theorem C7_parallelism (cp : ComputingPower) :
    (cp.cooling_level ≤ 1 →
      makeConfParallelism cp = ⟨1, 1, 1⟩ ∧ kernelParallelism cp = (1, 1)) ∧
    (cp.cpu_core_count = 8 → 2 ≤ cp.cooling_level → MEMORY_THRESHOLD ≤ cp.memory_size →
      makeConfParallelism cp = ⟨10, 8, 8⟩ ∧ kernelParallelism cp = (10, 8)) ∧
    (cp.cpu_core_count = 8 → 2 ≤ cp.cooling_level → cp.memory_size < MEMORY_THRESHOLD →
      makeConfParallelism cp = ⟨8, 8, 7⟩ ∧ kernelParallelism cp = (8, 7)) ∧
    (cp.cpu_core_count = 1 →
      1 ≤ (makeConfParallelism cp).loadavg ∧ 1 ≤ (kernelParallelism cp).2) := by
  refine ⟨?_, ?_, ?_, ?_⟩
  · intro h1
    simp [makeConfParallelism, kernelParallelism, h1]
  · intro hc hcool hmem
    have h1 : ¬ cp.cooling_level ≤ 1 := by omega
    simp [makeConfParallelism, kernelParallelism, h1, ge_iff_le, hmem, hc]
  · intro hc hcool hmem
    have h1 : ¬ cp.cooling_level ≤ 1 := by omega
    have h2 : ¬ MEMORY_THRESHOLD ≤ cp.memory_size := by omega
    simp [makeConfParallelism, kernelParallelism, h1, ge_iff_le, h2, hc]
  · intro hc
    unfold makeConfParallelism kernelParallelism
    split
    · simp
    · split <;> simp [hc]

/-- Claim C7 (witness): the derivation at 8 cores, exactly the memory
threshold and a non-minimum cooling tier. -/
theorem C7_witness :
    makeConfParallelism ⟨8, MEMORY_THRESHOLD, 2⟩ = ⟨10, 8, 8⟩ ∧
    kernelParallelism ⟨8, MEMORY_THRESHOLD, 2⟩ = (10, 8) :=
  (C7_parallelism ⟨8, MEMORY_THRESHOLD, 2⟩).2.1 rfl (by decide) (by simp)

/-- Claim C8: whenever `dev-util/ccache` is among the install candidates,
the emitted install list starts with it, keeps the relative order of all
other candidates, and is a permutation of the candidates. -/
theorem C8_ccache_first (isInstalled : String → Bool) (il ws : List String)
    (h : ccachePkg ∈ candidateList isInstalled il ws) :
    (computeInstallList isInstalled il ws).head? = some ccachePkg ∧
    (computeInstallList isInstalled il ws).filter (fun p => p ≠ ccachePkg) =
      (candidateList isInstalled il ws).filter (fun p => p ≠ ccachePkg) ∧
    (computeInstallList isInstalled il ws).Perm (candidateList isInstalled il ws) := by
  unfold computeInstallList
  rw [orderInstallList_eq _ h]
  have hf := filter_erase_ne ccachePkg (candidateList isInstalled il ws)
  refine ⟨rfl, ?_, (List.perm_cons_erase h).symm⟩
  rw [List.filter_cons]
  simp only [ne_eq, decide_not] at hf ⊢
  simp [hf]

/-- Claim C8 (witness): the three candidates of the spec's test, with
ccache supplied in the middle of the input order. -/
theorem C8_witness :
    (computeInstallList (fun _ => false)
        ["net-misc/curl", "dev-util/ccache"] ["sys-apps/foo"]).head? = some ccachePkg :=
  (C8_ccache_first (fun _ => false) ["net-misc/curl", "dev-util/ccache"]
      ["sys-apps/foo"] (by decide)).1

/-- Claim C10: a target configuration whose `world_set` shares a package
with `install_list` makes `Builder` construction fail with the settings
error, whatever the store contents — before any action can run — and
every successfully validated settings object has disjoint lists. -/
theorem C10_disjoint_lists :
    (∀ tsIn ts, targetSettingsInit tsIn = .ok ts →
      ∀ p, p ∈ ts.install_list → p ∉ ts.world_set) ∧
    (∀ rollback tsIn store il ws p,
      tsIn.install_list = some il → tsIn.world_set = some ws → p ∈ il → p ∈ ws →
      builderInit rollback tsIn store =
        .error "same element found in install_list and world_set") := by
  constructor
  · intro tsIn ts h p hpil hpws
    obtain ⟨ilo, wso⟩ := tsIn
    cases wso with
    | none =>
      have heq : targetSettingsInit ⟨ilo, none⟩ = .ok ⟨ilo.getD [], []⟩ := rfl
      rw [heq] at h
      injection h with h2
      subst h2
      exact absurd hpws (by simp)
    | some ws =>
      by_cases hex : ∃ x ∈ ws, x ∈ ilo.getD []
      · have heq : targetSettingsInit ⟨ilo, some ws⟩ =
            .error "same element found in install_list and world_set" := by
          simp [targetSettingsInit, hex]
        rw [heq] at h
        cases h
      · have heq : targetSettingsInit ⟨ilo, some ws⟩ = .ok ⟨ilo.getD [], ws⟩ := by
          simp [targetSettingsInit, hex]
        rw [heq] at h
        injection h with h2
        subst h2
        exact hex ⟨p, hpws, hpil⟩
  · intro rollback tsIn store il ws p hil hws hpil hpws
    obtain ⟨ilo, wso⟩ := tsIn
    simp only at hil hws
    subst hil
    subst hws
    have hex : ∃ x ∈ ws, x ∈ il := ⟨p, hpws, hpil⟩
    simp [builderInit, targetSettingsInit, hex]

/-- Claim C10 (witness): a shared package makes construction fail on an
empty store. -/
theorem C10_witness :
    builderInit false ⟨some ["app-misc/foo"], some ["app-misc/foo"]⟩ [] =
      .error "same element found in install_list and world_set" :=
  C10_disjoint_lists.2 false ⟨some ["app-misc/foo"], some ["app-misc/foo"]⟩ []
    ["app-misc/foo"] ["app-misc/foo"] "app-misc/foo" rfl rfl (by decide) (by decide)

/-! ## Lemmas about the chroot session -/

/-- Unmounting, in reverse order, targets that sit at the tail of the
mount table removes exactly them (forced variant). -/
theorem umountForced_rev : ∀ (r os0 : List String), r.Nodup →
    (∀ x ∈ r, x ∉ os0) → umountForced (os0 ++ r.reverse) r = (os0, r)
  | [], os0, _, _ => by simp [umountForced]
  | a :: rest, os0, hnd, hdis => by
    have hnotrest : a ∉ rest := (List.nodup_cons.mp hnd).1
    have hnotin : a ∉ os0 ++ rest.reverse := by
      simp only [List.mem_append, List.mem_reverse]
      rintro (hx | hx)
      · exact hdis a (by simp) hx
      · exact hnotrest hx
    have herase : (os0 ++ (rest.reverse ++ [a])).erase a = os0 ++ rest.reverse := by
      rw [← List.append_assoc, List.erase_append_right _ hnotin, List.erase_cons_head,
        List.append_nil]
    have ih := umountForced_rev rest os0 (List.nodup_cons.mp hnd).2
      (fun x hx => hdis x (by simp [hx]))
    simp only [List.reverse_cons, umountForced, herase, ih]

/-- Unmounting, in reverse order, targets that sit at the tail of the
mount table removes exactly them (mounted-check variant). -/
theorem umountChecked_rev : ∀ (r os0 : List String), r.Nodup →
    (∀ x ∈ r, x ∉ os0) → umountChecked (os0 ++ r.reverse) r = (os0, r)
  | [], os0, _, _ => by simp [umountChecked]
  | a :: rest, os0, hnd, hdis => by
    have hnotrest : a ∉ rest := (List.nodup_cons.mp hnd).1
    have hmem : a ∈ os0 ++ (rest.reverse ++ [a]) := by simp
    have hnotin : a ∉ os0 ++ rest.reverse := by
      simp only [List.mem_append, List.mem_reverse]
      rintro (hx | hx)
      · exact hdis a (by simp) hx
      · exact hnotrest hx
    have herase : (os0 ++ (rest.reverse ++ [a])).erase a = os0 ++ rest.reverse := by
      rw [← List.append_assoc, List.erase_append_right _ hnotin, List.erase_cons_head,
        List.append_nil]
    have ih := umountChecked_rev rest os0 (List.nodup_cons.mp hnd).2
      (fun x hx => hdis x (by simp [hx]))
    simp only [List.reverse_cons, umountChecked, hmem, if_pos, herase, ih]

/-- The attachment loop of `_Chrooter.bind` either attaches every target
or fails at the target its failure index points at, having attached and
recorded exactly the targets before it. -/
theorem chrooterBindLoop_cases (failAt : Option Nat) :
    ∀ (ts : List String) (k : Nat) (os b : List String),
    chrooterBindLoop failAt k ts ⟨os, basePaths, some b, [], true⟩ =
        .ok ⟨os ++ ts, basePaths, some (b ++ ts), [], true⟩ ∨
    (∃ done rest, ts = done ++ rest ∧ failAt = some (k + done.length) ∧
      chrooterBindLoop failAt k ts ⟨os, basePaths, some b, [], true⟩ =
        .error ⟨os ++ done, basePaths, some (b ++ done), [], true⟩)
  | [], k, os, b => by simp [chrooterBindLoop]
  | p :: rest, k, os, b => by
    by_cases hf : failAt = some k
    · right
      exact ⟨[], p :: rest, by simp, by simpa using hf, by simp [chrooterBindLoop, hf]⟩
    · have hstep : chrooterBindLoop failAt k (p :: rest) ⟨os, basePaths, some b, [], true⟩ =
          chrooterBindLoop failAt (k + 1) rest ⟨os ++ [p], basePaths, some (b ++ [p]), [], true⟩ := by
        simp [chrooterBindLoop, hf]
      rcases chrooterBindLoop_cases failAt rest (k + 1) (os ++ [p]) (b ++ [p]) with hok | hfail
      · left
        rw [hstep, hok]
        simp
      · right
        obtain ⟨done, rest2, hts, hfa, herr⟩ := hfail
        refine ⟨p :: done, rest2, by simp [hts], ?_, ?_⟩
        · rw [hfa]
          simp
          omega
        · rw [hstep, herr]
          simp

/-- `WorkDirChrooter.bind` from a fresh session either records the four
base mounts, or fails and unwinds, leaving empty records — and leaving
the OS mount table empty except when the failure hit the `--make-rslave`
call after a successful recursive bind of `/sys` or `/dev`. -/
theorem wdcBind_cases (failAt : Option Nat) :
    wdcBind failAt initMState = .ok ⟨basePaths, basePaths, none, [], true⟩ ∨
    (∃ st log, wdcBind failAt initMState = .error (st, log) ∧ st.mountList = [] ∧
      st.bindMountList = none ∧ st.scriptDirList = [] ∧ st.resolvConf = false ∧
      st.osMounts = (if failAt = some 3 then [sysPath]
        else if failAt = some 5 then [devPath] else [])) := by
  cases failAt with
  | none => left; rfl
  | some k =>
    match k with
    | 0 => right; exact ⟨⟨[], [], none, [], false⟩, [], rfl, rfl, rfl, rfl, rfl, by decide⟩
    | 1 => right; exact ⟨⟨[], [], none, [], false⟩, [], rfl, rfl, rfl, rfl, rfl, by decide⟩
    | 2 => right; exact ⟨⟨[], [], none, [], false⟩, [procPath], rfl, rfl, rfl, rfl, rfl,
        by decide⟩
    | 3 => right; exact ⟨⟨[sysPath], [], none, [], false⟩, [procPath], rfl, rfl, rfl,
        rfl, rfl, by decide⟩
    | 4 => right; exact ⟨⟨[], [], none, [], false⟩, [sysPath, procPath], rfl, rfl, rfl,
        rfl, rfl, by decide⟩
    | 5 => right; exact ⟨⟨[devPath], [], none, [], false⟩, [sysPath, procPath], rfl, rfl,
        rfl, rfl, rfl, by decide⟩
    | 6 => right; exact ⟨⟨[], [], none, [], false⟩, [devPath, sysPath, procPath], rfl, rfl,
        rfl, rfl, rfl, by decide⟩
    | n + 7 =>
      left
      have h0 : ¬ (n + 7 = 0) := by omega
      have h1 : ¬ (n + 7 = 1) := by omega
      have h2 : ¬ (n + 7 = 2) := by omega
      have h3 : ¬ (n + 7 = 3) := by omega
      have h4 : ¬ (n + 7 = 4) := by omega
      have h5 : ¬ (n + 7 = 5) := by omega
      have h6 : ¬ (n + 7 = 6) := by omega
      simp [wdcBind, h0, h1, h2, h3, h4, h5, h6, initMState, basePaths]

/-- Shape of any failed `_Chrooter.bind`: the records are cleared, the
transient state is cleaned, and the mount table keeps only a possible
rslave-window leftover. -/
theorem chrooterBind_error_shape (cfg : SessionCfg) (failAt : Option Nat)
    (hnd : (basePaths ++ bindTargets cfg).Nodup) (st : MState) (log : List String)
    (h : chrooterBind failAt cfg = .error (st, log)) :
    st.mountList = [] ∧ st.bindMountList = none ∧ st.scriptDirList = [] ∧
    st.resolvConf = false ∧
    st.osMounts = (if failAt = some 3 then [sysPath]
      else if failAt = some 5 then [devPath] else []) := by
  rcases wdcBind_cases failAt with hok | ⟨stb, logb, herr, h1, h2, h3, h4, h5⟩
  · unfold chrooterBind at h
    rw [hok] at h
    dsimp only at h
    rcases chrooterBindLoop_cases failAt (bindTargets cfg) 7 basePaths []
      with hloop | ⟨done, rest, hts, hfa, hloop⟩
    · rw [hloop] at h
      simp at h
    · rw [hloop] at h
      have hnd2 : (basePaths ++ (done ++ rest)).Nodup := by rw [← hts]; exact hnd
      have hdnd : done.Nodup :=
        ((List.nodup_append.mp (List.nodup_append.mp hnd2).2.1).1)
      have hdisj : ∀ x ∈ done, x ∉ basePaths := by
        intro x hx hxb
        exact (List.nodup_append.mp hnd2).2.2 hxb (by simp [hx])
      have hforced : umountForced (basePaths ++ done) done.reverse =
          (basePaths, done.reverse) := by
        have := umountForced_rev done.reverse basePaths (List.nodup_reverse.mpr hdnd)
          (fun x hx => hdisj x (List.mem_reverse.mp hx))
        rwa [List.reverse_reverse] at this
      have hcu : chrooterUnbind ⟨basePaths ++ done, basePaths, some done, [], true⟩ =
          some (⟨[], [], none, [], false⟩,
            done.reverse ++ [tmpPath, devPath, sysPath, procPath]) := by
        unfold chrooterUnbind
        simp only [hforced]
        rfl
      simp only [List.nil_append] at h
      simp only [hcu, Except.error.injEq, Prod.mk.injEq] at h
      obtain ⟨hst, hlog⟩ := h
      subst hst
      have hne3 : failAt ≠ some 3 := by rw [hfa]; simp; omega
      have hne5 : failAt ≠ some 5 := by rw [hfa]; simp; omega
      simp [hne3, hne5]
  · unfold chrooterBind at h
    rw [herr] at h
    simp only [Except.error.injEq, Prod.mk.injEq] at h
    obtain ⟨hst, hlog⟩ := h
    subst hst
    exact ⟨h1, h2, h3, h4, h5⟩

/-- Claim C2 (amended): after a failure at any attachment position of
`bind()` — any configuration of conditional cache mounts and bind-mounted
repositories — every recorded mount has been unwound and both mount
records are empty, so no partial record is ever left.  The OS mount
table is also left empty, except when the failure is the
`--make-rslave` call that follows a successful recursive bind of `/sys`
(failure position 3) or `/dev` (failure position 5): that mount was
attached but not yet recorded, and the unwind leaves exactly it bound. -/
theorem C2_bind_failure_unwind (cfg : SessionCfg) (failAt : Option Nat)
    (hnd : (basePaths ++ bindTargets cfg).Nodup) (st : MState) (log : List String)
    (h : chrooterBind failAt cfg = .error (st, log)) :
    st.mountList = [] ∧ st.bindMountList = none ∧ st.scriptDirList = [] ∧
    st.osMounts = (if failAt = some 3 then [sysPath]
      else if failAt = some 5 then [devPath] else []) := by
  obtain ⟨h1, h2, h3, _, h5⟩ := chrooterBind_error_shape cfg failAt hnd st log h
  exact ⟨h1, h2, h3, h5⟩

/-- Claim C2 (witness): a failure at the first bind-mount attachment of a
fully loaded configuration unwinds everything. -/
theorem C2_witness :
    (⟨[], [], none, [], false⟩ : MState).mountList = [] ∧
    (⟨[], [], none, [], false⟩ : MState).bindMountList = none ∧
    (⟨[], [], none, [], false⟩ : MState).scriptDirList = [] ∧
    (⟨[], [], none, [], false⟩ : MState).osMounts =
      (if (some 7 : Option Nat) = some 3 then [sysPath]
       else if (some 7 : Option Nat) = some 5 then [devPath] else []) :=
  C2_bind_failure_unwind cfg1 (some 7) (by decide) ⟨[], [], none, [], false⟩
    [tmpPath, devPath, sysPath, procPath] rfl

/-- Claim C2 (counterexample to the claim as stated): when the
`--make-rslave` call for `/sys` fails, the recursive bind of `/sys` has
already been attached but was never recorded; the unwind removes only
the recorded mounts and leaves `/sys` bound — a partial set of mounts
remains. -/
theorem C2_counterexample :
    chrooterBind (some 3) cfg0 = .error (⟨[sysPath], [], none, [], false⟩, [procPath]) ∧
    (⟨[sysPath], [], none, [], false⟩ : MState).osMounts ≠ [] :=
  ⟨rfl, by decide⟩

/-- Claim C3 (amended): after a partially failed `bind()` the session's
cleanup has already been completed by `bind` itself: no recorded mounts
remain and the internal `_unbind` is an idempotent no-op.  The public
`unbind()` however is not safe to call in that state: it asserts at
least one recorded mount and raises (`none`). -/
theorem C3_unbind_after_failed_bind (cfg : SessionCfg) (failAt : Option Nat)
    (hnd : (basePaths ++ bindTargets cfg).Nodup) (st : MState) (log : List String)
    (h : chrooterBind failAt cfg = .error (st, log)) :
    wdcUnbindInternal st = (st, []) ∧ wdcUnbind st = none ∧ chrooterUnbind st = none := by
  obtain ⟨h1, h2, h3, h4, _⟩ := chrooterBind_error_shape cfg failAt hnd st log h
  obtain ⟨os, ml, bml, sd, rc⟩ := st
  simp only at h1 h2 h3 h4
  subst h1; subst h2; subst h3; subst h4
  refine ⟨?_, rfl, rfl⟩
  simp [wdcUnbindInternal, umountChecked]

/-- Claim C3 (witness): the failed-bind states of a concrete session are
already clean, and the public unbind raises on them. -/
theorem C3_witness :
    wdcUnbindInternal ⟨[], [], none, [], false⟩ = (⟨[], [], none, [], false⟩, []) ∧
    wdcUnbind ⟨[], [], none, [], false⟩ = none ∧
    chrooterUnbind ⟨[], [], none, [], false⟩ = none :=
  C3_unbind_after_failed_bind cfg0 (some 7) (by decide) ⟨[], [], none, [], false⟩
    [tmpPath, devPath, sysPath, procPath] rfl

/-- Claim C3 (counterexample to the claim as stated): after a `bind()`
that failed at the first bind-mount attachment, calling `unbind()` is
not safe — `WorkDirChrooter.unbind` asserts a non-empty mount record and
raises an `AssertionError` (modelled as `none`). -/
theorem C3_counterexample :
    chrooterBind (some 7) cfg0 =
      .error (⟨[], [], none, [], false⟩, [tmpPath, devPath, sysPath, procPath]) ∧
    wdcUnbind ⟨[], [], none, [], false⟩ = none ∧
    chrooterUnbind ⟨[], [], none, [], false⟩ = none :=
  ⟨rfl, rfl, rfl⟩

/-- Claim C4: teardown of a bound session unmounts the recorded
attachments in exactly the reverse of the attachment order — the bind
mounts, reversed, then the base mounts, reversed, which is the reverse
of the concatenated attachment sequence — and teardown is attempted even
when setup aborted partway: any bind failure leaves both records empty
after the unwind ran. -/
theorem C4_reverse_teardown :
    (∀ (m b sd : List String) (rc : Bool), m ≠ [] → (m ++ b).Nodup →
      chrooterUnbind ⟨m ++ b, m, some b, sd, rc⟩ =
        some (⟨[], [], none, [], false⟩, (m ++ b).reverse)) ∧
    (∀ cfg failAt st log, (basePaths ++ bindTargets cfg).Nodup →
      chrooterBind failAt cfg = .error (st, log) →
      st.mountList = [] ∧ st.bindMountList = none) := by
  constructor
  · intro m b sd rc hm hnd
    obtain ⟨hndm, hndb, hdisj⟩ := List.nodup_append.mp hnd
    have hforced : umountForced (m ++ b) b.reverse = (m, b.reverse) := by
      have := umountForced_rev b.reverse m (List.nodup_reverse.mpr hndb)
        (fun x hx hxm => hdisj hxm (List.mem_reverse.mp hx))
      rwa [List.reverse_reverse] at this
    have hchecked : umountChecked m m.reverse = ([], m.reverse) := by
      have := umountChecked_rev m.reverse [] (List.nodup_reverse.mpr hndm)
        (fun x _ hx => (List.not_mem_nil x) hx)
      rwa [List.reverse_reverse, List.nil_append] at this
    have hne : m.isEmpty = false := by
      cases m
      · exact absurd rfl hm
      · rfl
    unfold chrooterUnbind
    simp only [hforced]
    unfold wdcUnbind
    simp only [hne, Bool.false_eq_true, if_false, wdcUnbindInternal]
    simp only [hchecked]
    simp [List.reverse_append]
  · intro cfg failAt st log hnd h
    obtain ⟨h1, h2, _, _, _⟩ := chrooterBind_error_shape cfg failAt hnd st log h
    exact ⟨h1, h2⟩

/-- Claim C4 (witness): reverse teardown of the base mounts plus the log
bind mount, and the abort case of a concrete failed bind. -/
theorem C4_witness :
    chrooterUnbind ⟨basePaths ++ [logPath], basePaths, some [logPath], [], true⟩ =
      some (⟨[], [], none, [], false⟩, (basePaths ++ [logPath]).reverse) ∧
    ((⟨[], [], none, [], false⟩ : MState).mountList = [] ∧
      (⟨[], [], none, [], false⟩ : MState).bindMountList = none) :=
  ⟨C4_reverse_teardown.1 basePaths [logPath] [] true (by decide) (by decide),
   C4_reverse_teardown.2 cfg0 (some 7) ⟨[], [], none, [], false⟩
     [tmpPath, devPath, sysPath, procPath] (by decide) rfl⟩

end GStage4
